import Mathlib

/-!
Verification development for the society payment tracker bot
(`services/telegram_bot.py`, `routes/bot_routes.py`,
`controllers/payment_controller.py`).

The Python sources are shallowly embedded below.  Pure helpers become Lean
functions over `List Char` / `String`; the handlers become functions from an
explicit environment (the values returned by the store collaborator, the
clock, fault-injection flags for the export collaborator) to the replies,
store operations and updated state they produce.  Python `float` string
conversion is embedded exactly: the decimal literal grammar is parsed to an
exact rational which is then rounded to the nearest IEEE-754 binary64 value
(round half to even, with underflow to zero and overflow to infinity).
Unicode character classes (`str.isdigit`, the case maps) are embedded on the
fragment of the Unicode tables exercised by this code base (ASCII, the Latin
ranges of the name regex, Arabic-Indic and Devanagari decimal digits,
superscript and subscript digits); all other codepoints are treated as
outside the classes.
-/

namespace SocietyBot

/-! ## Python string primitives -/

/-- Python whitespace used by `str.strip` and `float`, ASCII fragment:
space, tab, newline, carriage return, vertical tab, form feed. -/
def pyWhitespace (c : Char) : Bool :=
  c = ' ' || c = '\t' || c = '\n' || c = '\r' ||
  c = Char.ofNat 11 || c = Char.ofNat 12

/-- Strip leading whitespace. -/
def pyStripLeft (l : List Char) : List Char :=
  l.dropWhile pyWhitespace

/-- Embedding of Python `str.strip()`: drop whitespace from both ends. -/
def pyStrip (l : List Char) : List Char :=
  ((l.dropWhile pyWhitespace).reverse.dropWhile pyWhitespace).reverse

/-- Embedding of Python `str.split(sep)` for a single-character separator:
`"a--b".split('-') == ['a', '', 'b']`, `"".split('-') == ['']`. -/
def splitOnChar (sep : Char) : List Char → List (List Char)
  | [] => [[]]
  | c :: rest =>
    match splitOnChar sep rest with
    | [] => [[]]
    | g :: gs => if c = sep then [] :: g :: gs else (c :: g) :: gs

/-- ASCII decimal digit. -/
def asciiDigit (c : Char) : Bool :=
  decide ('0' ≤ c) && decide (c ≤ '9')

/-- Unicode decimal-digit (category Nd) value, on the fragment of the
Unicode tables used here: ASCII, Arabic-Indic, extended Arabic-Indic and
Devanagari digits.  These are exactly the characters `int()` accepts as
digits (restricted to this fragment). -/
def ndDigitVal (c : Char) : Option Nat :=
  if asciiDigit c then some (c.toNat - 48)
  else if 0x660 ≤ c.toNat ∧ c.toNat ≤ 0x669 then some (c.toNat - 0x660)
  else if 0x6F0 ≤ c.toNat ∧ c.toNat ≤ 0x6F9 then some (c.toNat - 0x6F0)
  else if 0x966 ≤ c.toNat ∧ c.toNat ≤ 0x96F then some (c.toNat - 0x966)
  else none

/-- Embedding of Python `str.isdigit` on single characters (same Unicode
fragment): true on category-Nd digits and additionally on the digit-valued
characters of category No — the superscript digits U+00B2, U+00B3, U+00B9,
U+2070, U+2074..U+2079 and the subscript digits U+2080..U+2089 — which
`int()` nevertheless rejects. -/
def pyIsDigit (c : Char) : Bool :=
  (ndDigitVal c).isSome ||
  c.toNat = 0xB2 || c.toNat = 0xB3 || c.toNat = 0xB9 ||
  c.toNat = 0x2070 || (decide (0x2074 ≤ c.toNat) && decide (c.toNat ≤ 0x2079)) ||
  (decide (0x2080 ≤ c.toNat) && decide (c.toNat ≤ 0x2089))

/-- Value of `int(s)` on a string of category-Nd digits. -/
def intValNd (l : List Char) : Nat :=
  l.foldl (fun a c => 10 * a + (ndDigitVal c).getD 0) 0

/-- ASCII lower-casing of one character (fragment of `str.lower`):
characters outside A–Z are unchanged. -/
def pyLower (c : Char) : Char :=
  if decide ('A' ≤ c) && decide (c ≤ 'Z') then Char.ofNat (c.toNat + 32) else c

/-- ASCII upper-casing of one character (fragment of `str.upper`):
characters outside a–z are unchanged. -/
def pyUpper (c : Char) : Char :=
  if decide ('a' ≤ c) && decide (c ≤ 'z') then Char.ofNat (c.toNat - 32) else c

/-! ## Python `float(str)` — exact decimal grammar, then IEEE-754 rounding

`is_valid_amount` (telegram_bot.py lines 96-110) runs `float(amount_str)`
and checks `0 < amount <= 99999999.99`.  CPython's `float` accepts optional
surrounding whitespace, an optional sign, either a special word
(`inf`/`infinity`/`nan`, case-insensitive) or a decimal literal with single
underscores between digits and an optional exponent, and rounds the exact
decimal value to the nearest binary64 value (ties to even), giving `0.0` on
underflow and `inf` on overflow.  We embed that pipeline exactly, with all
computation over `Nat`/`Int` (exact numerator / power-of-ten denominator
pairs, then significand-and-exponent doubles) so that it reduces inside the
kernel; `ℚ` appears only in statement-level value semantics. -/

/-- Result of a Python `float` conversion, as sign / significand /
binary exponent: `finite sg m s` denotes the value `±(m · 2^s)` (produced
in normalised form by the rounding below). -/
inductive PyFloat
  | finite (sign : Bool) (m : Nat) (s : Int)
  | pinf
  | ninf
  | nan
deriving DecidableEq

/-- Result of parsing the text of a float literal, before rounding:
`num sg n d` denotes the exact value `±(n / d)` with `d` a positive power
of ten. -/
inductive PyLit
  | num (sign : Bool) (n : Nat) (d : Nat)
  | pinf
  | ninf
  | nan
deriving DecidableEq

/-- Greedily consume a digit group `D ( '_'? D )*` (underscores allowed only
between digits, as in Python's float grammar); returns the digits consumed
and the rest of the input.  Stops (without consuming) at an underscore that
is not followed by a digit. -/
def digGroup : List Char → List Nat × List Char
  | [] => ([], [])
  | c :: '_' :: c2 :: rest2 =>
    if asciiDigit c then
      if asciiDigit c2 then
        let p := digGroup (c2 :: rest2)
        ((c.toNat - 48) :: p.1, p.2)
      else ([c.toNat - 48], '_' :: c2 :: rest2)
    else ([], c :: '_' :: c2 :: rest2)
  | c :: rest =>
    if asciiDigit c then
      let p := digGroup rest
      ((c.toNat - 48) :: p.1, p.2)
    else ([], c :: rest)

/-- Value of a list of decimal digits. -/
def digitsVal (ds : List Nat) : Nat :=
  ds.foldl (fun a d => 10 * a + d) 0

/-- Parse the mantissa part `digits [ '.' [digits] ]` (also `.digits`);
returns its exact value as a numerator / power-of-ten-denominator pair and
the unconsumed rest. -/
def parseMantissa (l : List Char) : Option ((Nat × Nat) × List Char) :=
  let p := digGroup l
  match p.2 with
  | '.' :: r2 =>
    let f := digGroup r2
    if p.1.isEmpty && f.1.isEmpty then none
    else some ((digitsVal p.1 * 10 ^ f.1.length + digitsVal f.1, 10 ^ f.1.length), f.2)
  | _ => if p.1.isEmpty then none else some ((digitsVal p.1, 1), p.2)

/-- Parse the full body of a float literal after sign removal: either a
mantissa alone or a mantissa followed by `e`/`E`, an optional sign and a
digit group, with nothing left over.  The exponent scales the numerator or
the denominator by the corresponding power of ten. -/
def parseNumBody (l : List Char) : Option (Nat × Nat) :=
  match parseMantissa l with
  | none => none
  | some (nd, r1) =>
    match r1 with
    | [] => some nd
    | e :: r2 =>
      if e = 'e' ∨ e = 'E' then
        let sr : Bool × List Char :=
          match r2 with
          | '+' :: t => (false, t)
          | '-' :: t => (true, t)
          | _ => (false, r2)
        let dg := digGroup sr.2
        if dg.1.isEmpty || !dg.2.isEmpty then none
        else
          let ex := digitsVal dg.1
          if sr.1 then some (nd.1, nd.2 * 10 ^ ex) else some (nd.1 * 10 ^ ex, nd.2)
      else none

/-- Parse a Python float literal: strip whitespace, take an optional sign,
then either a special word (case-insensitive) or a number body.  Returns
the exact value. -/
def pyParseLit (s : String) : Option PyLit :=
  let l := pyStrip s.data
  let sl : Bool × List Char :=
    match l with
    | '+' :: t => (false, t)
    | '-' :: t => (true, t)
    | _ => (false, l)
  let low := sl.2.map pyLower
  if low = "inf".data ∨ low = "infinity".data then
    some (if sl.1 then PyLit.ninf else PyLit.pinf)
  else if low = "nan".data then some PyLit.nan
  else
    match parseNumBody sl.2 with
    | none => none
    | some nd => some (PyLit.num sl.1 nd.1 nd.2)

/-- Base-2 logarithm with explicit fuel (structural recursion, so that it
reduces definitionally on literals). -/
def log2fuel : Nat → Nat → Nat
  | 0, _ => 0
  | fuel + 1, n => if n ≤ 1 then 0 else log2fuel fuel (n / 2) + 1

/-- Floor of the base-2 logarithm of a positive natural number. -/
def natLog2 (n : Nat) : Nat := log2fuel n n

/-- Decide `2^e ≤ n / d` for positive `n`, `d` by integer comparison. -/
def qle2 (e : Int) (n d : Nat) : Bool :=
  if 0 ≤ e then d * 2 ^ e.toNat ≤ n else d ≤ n * 2 ^ (-e).toNat

/-- Floor of the base-2 logarithm of the positive rational `n / d`. -/
def flog2N (n d : Nat) : Int :=
  let e : Int := (natLog2 n : Int) - (natLog2 d : Int)
  if qle2 (e + 1) n d then e + 1 else if !qle2 e n d then e - 1 else e

/-- Round `(n / d) · 2^(-s)` to the nearest integer, ties to even
(`n`, `d` positive). -/
def rheScaled (n d : Nat) (s : Int) : Nat :=
  let a := if s ≤ 0 then n * 2 ^ (-s).toNat else n
  let b := if s ≤ 0 then d else d * 2 ^ s.toNat
  let f := a / b
  let r2 := 2 * (a % b)
  if r2 < b then f
  else if b < r2 then f + 1
  else if f % 2 = 0 then f else f + 1

/-- Round the positive rational `n / d` to a binary64 significand/exponent
pair: 52 fractional significand bits, exponent clamped at the subnormal
position `-1074`. -/
def roundPosN (n d : Nat) : Nat × Int :=
  let e := flog2N n d
  let s : Int := if e - 52 ≤ -1074 then -1074 else e - 52
  (rheScaled n d s, s)

/-- Decide `2^k ≤ m · 2^s` (via `m ≥ 2^y ↔ y ≤ log2 m` to keep the
computed powers small). -/
def pow2le (m : Nat) (s k : Int) : Bool :=
  if m = 0 then false
  else if s ≤ k then (k - s).toNat ≤ natLog2 m else true

/-- Round the exact value `±(n / d)` to the nearest binary64 value:
zero stays (signed) zero, results at or above `2^1024` overflow to the
corresponding infinity. -/
def roundToDoubleN (sign : Bool) (n d : Nat) : PyFloat :=
  if n = 0 then PyFloat.finite sign 0 0
  else
    let p := roundPosN n d
    if pow2le p.1 p.2 1024 then (if sign then PyFloat.ninf else PyFloat.pinf)
    else PyFloat.finite sign p.1 p.2

/-- Embedding of Python `float(s)` for strings: parse, then round. -/
def pyFloatOfString (s : String) : Option PyFloat :=
  match pyParseLit s with
  | none => none
  | some (PyLit.num sg n d) => some (roundToDoubleN sg n d)
  | some PyLit.pinf => some PyFloat.pinf
  | some PyLit.ninf => some PyFloat.ninf
  | some PyLit.nan => some PyFloat.nan

/-- The signed value `±(m · 2^s)`, rescaled by `2^(-base)` (for `s ≥ base`
this is an integer). -/
def finScaled (sg : Bool) (m : Nat) (s base : Int) : Int :=
  (if sg then -(m : Int) else (m : Int)) * ((2 ^ (s - base).toNat : Nat) : Int)

/-- Compare two finite doubles by value: `±(m₁·2^s₁) < ±(m₂·2^s₂)`. -/
def finLt (sg1 : Bool) (m1 : Nat) (s1 : Int) (sg2 : Bool) (m2 : Nat) (s2 : Int) : Bool :=
  let b := if s1 ≤ s2 then s1 else s2
  finScaled sg1 m1 s1 b < finScaled sg2 m2 s2 b

/-- Compare two finite doubles by value: `≤`. -/
def finLe (sg1 : Bool) (m1 : Nat) (s1 : Int) (sg2 : Bool) (m2 : Nat) (s2 : Int) : Bool :=
  let b := if s1 ≤ s2 then s1 else s2
  finScaled sg1 m1 s1 b ≤ finScaled sg2 m2 s2 b

/-- IEEE comparison `a < b` on Python floats (`nan` incomparable). -/
def pyFloatLt : PyFloat → PyFloat → Bool
  | PyFloat.nan, _ => false
  | _, PyFloat.nan => false
  | PyFloat.ninf, PyFloat.ninf => false
  | PyFloat.ninf, _ => true
  | _, PyFloat.ninf => false
  | PyFloat.pinf, _ => false
  | _, PyFloat.pinf => true
  | PyFloat.finite sg1 m1 s1, PyFloat.finite sg2 m2 s2 => finLt sg1 m1 s1 sg2 m2 s2

/-- IEEE comparison `a ≤ b` on Python floats (`nan` incomparable). -/
def pyFloatLe : PyFloat → PyFloat → Bool
  | PyFloat.nan, _ => false
  | _, PyFloat.nan => false
  | PyFloat.ninf, _ => true
  | _, PyFloat.ninf => false
  | _, PyFloat.pinf => true
  | PyFloat.pinf, _ => false
  | PyFloat.finite sg1 m1 s1, PyFloat.finite sg2 m2 s2 => finLe sg1 m1 s1 sg2 m2 s2

/-- The binary64 zero `0.0` appearing in the comparison chain. -/
def pyZero : PyFloat := PyFloat.finite false 0 0

/-- The double written `99999999.99` in the Python source: the nearest
binary64 value to that decimal, namely `6710886399328911 · 2^(-26)` (which
is about `5.4e-9` below the exact decimal). -/
def amountLimit : PyFloat := roundToDoubleN false 9999999999 100

/-- Exact rational value of a finite double `±(m · 2^s)` (statement-level
semantics; not used in computations). -/
def finVal (sg : Bool) (m : Nat) (s : Int) : ℚ :=
  (if sg then (-1 : ℚ) else 1) * (m : ℚ) * (2 : ℚ) ^ s

/-- Exact rational value of a Python float, `none` on `±inf` / `nan`. -/
def pyFloatVal : PyFloat → Option ℚ
  | PyFloat.finite sg m s => some (finVal sg m s)
  | _ => none

/-- Embedding of `is_valid_amount` (telegram_bot.py lines 96-110):
`float(amount_str)` must succeed and the chained comparison
`0 < amount <= 99999999.99` must hold (on binary64 values). -/
def is_valid_amount (amount_str : String) : Bool :=
  match pyFloatOfString amount_str with
  | none => false
  | some v => pyFloatLt pyZero v && pyFloatLe v amountLimit

/-! ## Validators (telegram_bot.py lines 78-138) -/

/-- Character class of the name regex
`r'^[a-zA-ZÀ-ɏḀ-ỿ]+$'`: ASCII letters plus the two
Latin ranges U+00C0..U+024F and U+1E00..U+1EFF.  (The first range contains
the two non-letter symbols U+00D7 `×` and U+00F7 `÷`.) -/
def nameRangeChar (c : Char) : Bool :=
  (decide ('a' ≤ c) && decide (c ≤ 'z')) ||
  (decide ('A' ≤ c) && decide (c ≤ 'Z')) ||
  (decide (0xC0 ≤ c.toNat) && decide (c.toNat ≤ 0x24F)) ||
  (decide (0x1E00 ≤ c.toNat) && decide (c.toNat ≤ 0x1EFF))

/-- Python `re.match(r'^[class]+$', s)` as a boolean: without `re.MULTILINE`,
`$` matches at the end of the string or just before one final newline, so
the regex accepts a nonempty run of class characters optionally followed by
a single trailing newline. -/
def pyRegexNameMatch (l : List Char) : Bool :=
  let core :=
    match l.getLast? with
    | some c => if c = '\n' then l.dropLast else l
    | none => l
  !core.isEmpty && core.all nameRangeChar

/-- Embedding of `is_valid_name` (telegram_bot.py lines 78-93): reject
empty or over-100-character strings, then apply the regex. -/
def is_valid_name (l : List Char) : Bool :=
  if l.length = 0 ∨ 100 < l.length then false else pyRegexNameMatch l

/-- Embedding of `capitalize_first_letter` / `capitalize_first`
(telegram_bot.py lines 113-125, bot_routes.py lines 41-45):
`text[0].upper() + text[1:].lower()` (ASCII case fragment). -/
def capitalize_first : List Char → List Char
  | [] => []
  | c :: t => pyUpper c :: t.map pyLower

/-- String form of `capitalize_first`. -/
def capitalize_firstS (s : String) : String :=
  String.mk (capitalize_first s.data)

/-- Wall-clock timestamp broken into calendar fields (the embedding of the
Python `datetime` values handed around by the store and the formatters). -/
structure DateTime where
  year : Nat
  month : Nat
  day : Nat
  hour : Nat
  minute : Nat
  second : Nat
deriving DecidableEq

/-- Zero-pad a number to two digits (`strftime` field padding). -/
def pad2 (n : Nat) : String :=
  if n < 10 then "0" ++ toString n else toString n

/-- Zero-pad a year to four digits (`%Y`). -/
def pad4 (n : Nat) : String :=
  if n < 10 then "000" ++ toString n
  else if n < 100 then "00" ++ toString n
  else if n < 1000 then "0" ++ toString n
  else toString n

/-- Embedding of `format_datetime` (telegram_bot.py lines 128-138):
`dt.strftime('%Y-%m-%d %H:%M')`. -/
def format_datetime (dt : DateTime) : String :=
  pad4 dt.year ++ "-" ++ pad2 dt.month ++ "-" ++ pad2 dt.day ++ " " ++
  pad2 dt.hour ++ ":" ++ pad2 dt.minute

/-- Embedding of `format_full_datetime` (bot_routes.py lines 53-55):
`dt.strftime('%Y-%m-%d %H:%M:%S')`. -/
def format_full_datetime (dt : DateTime) : String :=
  format_datetime dt ++ ":" ++ pad2 dt.second

/-- A stored payment record.  The DB column `amount` is a 2-fraction-digit
decimal; we carry it exactly as a count of cents, so the `float(...)`
round-trips and `f"{x:.2f}"` renderings in the handlers are exact. -/
structure Payment where
  id : Nat
  member_name : String
  amountCents : Nat
  recorded_by : Nat
  payment_date : DateTime
deriving DecidableEq

/-- Render a cents value the way `f"{amount:.2f}"` renders the
corresponding 2-decimal amount. -/
def fmtCents2 (c : Nat) : String :=
  toString (c / 100) ++ "." ++ pad2 (c % 100)

/-- Render a Python float with `f"{x:.2f}"`: correctly rounded (half to
even) fixed 2-decimal rendering of the binary64 value. -/
def fmtFloat2 (v : PyFloat) : String :=
  match v with
  | PyFloat.finite sg m s =>
    let n := rheScaled (m * 100) 1 (-s)
    let base := toString (n / 100) ++ "." ++ pad2 (n % 100)
    if sg then "-" ++ base else base
  | PyFloat.pinf => "inf"
  | PyFloat.ninf => "-inf"
  | PyFloat.nan => "nan"

/-! ## The catch-all payment message handler (telegram_bot.py 265-347) -/

/-- The single invalid-format reply text, shared verbatim by the
segment-count, name and amount failure branches. -/
def invalidFormatMsg : String := "❌ Invalid format. Use: name-amount (example: kamal-500)"

/-- Reply sent when the store insert raises. -/
def recordFailedMsg : String := "❌ Failed to record payment. Please try again."

/-- Success reply of the payment handler. -/
def successMsg (name : List Char) (amount : PyFloat) (d : DateTime) : String :=
  "✅ Payment recorded successfully\nMember: " ++ String.mk (capitalize_first name) ++
  "\nAmount: Rs." ++ fmtFloat2 amount ++ "\nDate: " ++ format_datetime d

/-- `float` of an already-validated amount string (validation guarantees
the conversion succeeds; the default is unreachable). -/
def pyFloatOfChars (l : List Char) : PyFloat :=
  (pyFloatOfString (String.mk l)).getD PyFloat.nan

/-- Store calls made by the payment message handler. -/
inductive PaymentOp
  | insert (name : List Char) (amount : PyFloat)
deriving DecidableEq

/-- Collaborator results visible to the payment message handler: whether
the insert succeeds and the store-assigned payment date. -/
structure MsgEnv where
  insertOk : Bool
  insertedDate : DateTime
deriving DecidableEq

/-- Embedding of `handle_payment_message` (telegram_bot.py lines 265-347)
on a non-command text message: returns the reply sent (if any) and the
store operations performed.  The framework-level guards (`update.message`
present, command filtering) are outside this function, as in the source
where `filters.TEXT & ~filters.COMMAND` routes here. -/
def handle_payment_message (env : MsgEnv) (text : List Char) :
    Option String × List PaymentOp :=
  let t := pyStrip text
  if '-' ∉ t then (none, [])
  else
    match splitOnChar '-' t with
    | [a, b] =>
      let name := pyStrip a
      let amount_str := pyStrip b
      if !(is_valid_name name) then (some invalidFormatMsg, [])
      else if !(is_valid_amount (String.mk amount_str)) then (some invalidFormatMsg, [])
      else
        let amount := pyFloatOfChars amount_str
        if env.insertOk then
          (some (successMsg name amount env.insertedDate), [PaymentOp.insert name amount])
        else (some recordFailedMsg, [PaymentOp.insert name amount])
    | _ => (some invalidFormatMsg, [])

/-! ## Admin set (telegram_bot.py lines 43-75) -/

/-- Embedding of `load_admin_ids` (telegram_bot.py lines 46-62).  The env
var (or `""` when unset) is split on commas; the set comprehension keeps
`int(tok.strip())` for each token whose stripped form passes `isdigit`;
if any such `int` call raises `ValueError` (a digit-classified character
outside category Nd, such as `²`), the `except` branch replaces the whole
set with the empty set.  The resulting set is represented as a list, with
membership as the set-membership. -/
def load_admin_ids (envVar : Option String) : List Nat :=
  let s := envVar.getD ""
  if s = "" then []
  else
    let toks := (splitOnChar ',' s.data).map pyStrip
    let keep := toks.filter (fun t => !t.isEmpty && t.all pyIsDigit)
    if keep.all (fun t => t.all (fun c => (ndDigitVal c).isSome)) then
      keep.map intValNd
    else []

/-- Embedding of `is_admin` (telegram_bot.py lines 65-75):
`user_id in ADMIN_IDS`. -/
def is_admin (user_id : Nat) (admins : List Nat) : Bool :=
  admins.contains user_id

/-! ## Reset confirmation state (bot_routes.py lines 36-38, 324-407) -/

/-- `RESET_TIMEOUT = 60` seconds. -/
def RESET_TIMEOUT : ℚ := 60

/-- The module-level `reset_confirmations: Dict[int, float]` mapping user
ids to request timestamps, as an insertion-ordered association list. -/
abbrev ResetMap := List (Nat × ℚ)

/-- `d.get(k)` on the confirmation dict. -/
def dictGet (m : ResetMap) (k : Nat) : Option ℚ :=
  match m.find? (fun p => p.1 = k) with
  | some p => some p.2
  | none => none

/-- `d[k] = v` on the confirmation dict (replaces in place, else appends). -/
def dictSet : ResetMap → Nat → ℚ → ResetMap
  | [], k, v => [(k, v)]
  | p :: t, k, v => if p.1 = k then (k, v) :: t else p :: dictSet t k v

/-- `d.pop(k, None)` on the confirmation dict (result map). -/
def dictPop (m : ResetMap) (k : Nat) : ResetMap :=
  m.filter (fun p => p.1 ≠ k)

/-- Replies produced by the command handlers (constructors stand for the
fixed message texts of bot_routes.py / telegram_bot.py; data-carrying
constructors record the values interpolated into the text). -/
inductive Reply
  | unauthorized
  | startHelp
  | noRecordsToDelete
  | resetWarning (totalPayments : Nat)
  | noValidResetRequest
  | resetComplete (deletedCount : Nat)
  | resetError
  | tableView
  | tableEmpty
  | todayView
  | monthView
  | memberUsage
  | memberView
  | memberEmpty
  | statsView
  | statsEmpty
  | exportSummary
deriving DecidableEq

/-- Payment Store calls made by the admin command handlers. -/
inductive StoreOp
  | getStats
  | deleteAll
  | getLast (n : Nat)
  | getToday
  | getMonth
  | getMember (name : String)
  | getAll
deriving DecidableEq

/-- Collaborator results visible to the admin command handlers: the store
aggregates they read, and the wall clock. -/
structure RouteEnv where
  statsCount : Nat
  deleteCount : Nat
  recordCount : Nat
  memberArg : Option String
  memberHasRecords : Bool
  now : ℚ
deriving DecidableEq

/-- Embedding of `handle_reset_command` (bot_routes.py lines 324-362):
read the stats; with zero records reply and leave the confirmation map
alone; otherwise store `now` under the caller's id (overwriting any prior
entry) and send the warning. -/
def handle_reset_command (uid : Nat) (env : RouteEnv) (m : ResetMap) :
    List Reply × ResetMap × List StoreOp :=
  if env.statsCount = 0 then ([Reply.noRecordsToDelete], m, [StoreOp.getStats])
  else ([Reply.resetWarning env.statsCount], dictSet m uid env.now, [StoreOp.getStats])

/-- Embedding of `handle_confirm_reset_command` (bot_routes.py lines
365-407).  The guard is `not confirmation_time or (now - confirmation_time)
>= RESET_TIMEOUT`: a missing entry, a (Python-falsy) stored timestamp of
exactly `0.0`, or sixty-or-more elapsed seconds all take the invalid/expired
branch, which replies and pops the caller's entry; otherwise the entry is
popped, `reset_all_payments` runs, and the reply carries its
`deleted_count`. -/
def handle_confirm_reset_command (uid : Nat) (env : RouteEnv) (m : ResetMap) :
    List Reply × ResetMap × List StoreOp :=
  match dictGet m uid with
  | none => ([Reply.noValidResetRequest], dictPop m uid, [])
  | some t =>
    if t = 0 ∨ RESET_TIMEOUT ≤ env.now - t then
      ([Reply.noValidResetRequest], dictPop m uid, [])
    else ([Reply.resetComplete env.deleteCount], dictPop m uid, [StoreOp.deleteAll])

/-! ## Command dispatch (telegram_bot.py lines 194-258, 391-400) -/

/-- The registered slash commands. -/
inductive Cmd
  | start
  | help
  | table
  | today
  | month
  | member
  | export
  | stats
  | reset
  | confirm_reset
deriving DecidableEq

/-- The eight admin-only commands. -/
def adminCmds : List Cmd :=
  [Cmd.table, Cmd.today, Cmd.month, Cmd.member, Cmd.export, Cmd.stats,
   Cmd.reset, Cmd.confirm_reset]

/-- The route handlers entered once the admin check passed (bot_routes.py).
Reply texts of the read-only reports are abstracted to constructors; their
store calls and empty-state branching are kept. -/
def routeAdmin (c : Cmd) (uid : Nat) (env : RouteEnv) (m : ResetMap) :
    List Reply × ResetMap × List StoreOp :=
  match c with
  | Cmd.table =>
    ([if env.recordCount = 0 then Reply.tableEmpty else Reply.tableView], m, [StoreOp.getLast 20])
  | Cmd.today => ([Reply.todayView], m, [StoreOp.getToday])
  | Cmd.month => ([Reply.monthView], m, [StoreOp.getMonth])
  | Cmd.member =>
    match env.memberArg with
    | none => ([Reply.memberUsage], m, [])
    | some name =>
      ([if env.memberHasRecords then Reply.memberView else Reply.memberEmpty], m,
       [StoreOp.getMember name])
  | Cmd.export =>
    ([if env.recordCount = 0 then Reply.statsEmpty else Reply.exportSummary], m, [StoreOp.getAll])
  | Cmd.stats =>
    ([if env.statsCount = 0 then Reply.statsEmpty else Reply.statsView], m, [StoreOp.getStats])
  | Cmd.reset => handle_reset_command uid env m
  | Cmd.confirm_reset => handle_confirm_reset_command uid env m
  | _ => ([Reply.startHelp], m, [])

/-- Embedding of the command wrappers (telegram_bot.py lines 213-258):
`/start` and `/help` are open; every other command first runs `admin_only`,
which sends the fixed unauthorized reply and stops — before any store call
and before the confirmation map is read or written — unless
`is_admin(user_id)`. -/
def dispatch (c : Cmd) (uid : Nat) (admins : List Nat) (env : RouteEnv)
    (m : ResetMap) : List Reply × ResetMap × List StoreOp :=
  match c with
  | Cmd.start => ([Reply.startHelp], m, [])
  | Cmd.help => ([Reply.startHelp], m, [])
  | _ =>
    if is_admin uid admins then routeAdmin c uid env m
    else ([Reply.unauthorized], m, [])

/-! ## Excel export (bot_routes.py lines 208-321) -/

/-- A populated worksheet cell: row, column, value. -/
inductive CellVal
  | str (s : String)
  | int (n : Nat)
deriving DecidableEq

/-- Worksheet cells as (row, column, value) triples. -/
abbrev Cell := Nat × Nat × CellVal

/-- The header row written at row 1 (bot_routes.py line 248). -/
def headerCells : List Cell :=
  [(1, 1, CellVal.str "ID"), (1, 2, CellVal.str "Member Name"),
   (1, 3, CellVal.str "Amount (Rs.)"), (1, 4, CellVal.str "Recorded By (User ID)"),
   (1, 5, CellVal.str "Payment Date")]

/-- One data row (bot_routes.py lines 262-266): id, capitalized name,
2-decimal amount string, recorded-by as a string, full datetime string. -/
def dataRowCells (row : Nat) (p : Payment) : List Cell :=
  [(row, 1, CellVal.int p.id),
   (row, 2, CellVal.str (capitalize_firstS p.member_name)),
   (row, 3, CellVal.str (fmtCents2 p.amountCents)),
   (row, 4, CellVal.str (toString p.recorded_by)),
   (row, 5, CellVal.str (format_full_datetime p.payment_date))]

/-- The loop `for row_num, payment in enumerate(payments, 2)`. -/
def dataCellsFrom (row : Nat) : List Payment → List Cell
  | [] => []
  | p :: t => dataRowCells row p ++ dataCellsFrom (row + 1) t

/-- `float(payment['amount'])`: the DB's 2-decimal amount converted to the
nearest binary64 value. -/
def amountDouble (cents : Nat) : PyFloat := roundToDoubleN false cents 100

/-- IEEE-754 addition of two nonnegative finite doubles
`m₁·2^s₁ + m₂·2^s₂`: the exact sum rounded to the nearest binary64 value
(ties to even), `+inf` on overflow. -/
def addFinDouble (m1 : Nat) (s1 : Int) (m2 : Nat) (s2 : Int) : PyFloat :=
  let e := if s1 ≤ s2 then s1 else s2
  let M := m1 * 2 ^ (s1 - e).toNat + m2 * 2 ^ (s2 - e).toNat
  if 0 ≤ e then roundToDoubleN false (M * 2 ^ e.toNat) 1
  else roundToDoubleN false M (2 ^ (-e).toNat)

/-- Python float `+` on the values that arise in the export loop
(nonnegative finite doubles and `+inf`): `nan` propagates, `+inf` absorbs,
finite operands add with correct rounding. -/
def pyFloatAddPos : PyFloat → PyFloat → PyFloat
  | PyFloat.nan, _ => PyFloat.nan
  | _, PyFloat.nan => PyFloat.nan
  | PyFloat.finite _ m1 s1, PyFloat.finite _ m2 s2 => addFinDouble m1 s1 m2 s2
  | _, _ => PyFloat.pinf

/-- The running `total_amount` of the export loop (bot_routes.py lines
257-260): starts at `0.0` and accumulates each record's `float(amount)` in
binary64 arithmetic — so for long lists it can differ from the exact
decimal sum in its last rendered digit. -/
def totalDouble (ps : List Payment) : PyFloat :=
  ps.foldl (fun acc p => pyFloatAddPos acc (amountDouble p.amountCents))
    (PyFloat.finite false 0 0)

/-- All cells the export writes for a record list: header at row 1, data
rows from row 2, and the summary cells at `summary_row = len(payments) + 3`
(bot_routes.py lines 269-271) — note that this leaves row
`len(payments) + 2` empty.  The summary amount is the float-accumulated
total rendered with `f"{total_amount:.2f}"`. -/
def exportCells (ps : List Payment) : List Cell :=
  headerCells ++ dataCellsFrom 2 ps ++
  [(ps.length + 3, 1, CellVal.str "TOTAL"),
   (ps.length + 3, 3, CellVal.str (fmtFloat2 (totalDouble ps)))]

/-- Largest populated row index of a cell list (the worksheet's extent). -/
def maxRow (cells : List Cell) : Nat :=
  cells.foldr (fun c m => max c.1 m) 0

/-- The populated cells of one row, in writing order. -/
def rowCells (cells : List Cell) (r : Nat) : List Cell :=
  cells.filter (fun c => c.1 = r)

/-- Outcome of `wb.save(filepath)`: success, failure that still left a
(partial) file on disk, or failure with no file on disk. -/
inductive SaveOutcome
  | ok
  | failFileLeft
  | failNoFile
deriving DecidableEq

/-- Collaborator behaviour for one `/export` run: the records returned by
`get_all_payments` (with a flag for the query itself raising), the save
outcome, and whether `send_document` succeeds. -/
structure ExportEnv where
  payments : List Payment
  fetchOk : Bool
  save : SaveOutcome
  sendOk : Bool
deriving DecidableEq

/-- Observable events of one `/export` run. -/
inductive ExpEv
  | sentMsg (s : String)
  | sentErrMsg
  | storeGetAll
  | fileCreated
  | sentDoc
  | fileRemoved
deriving DecidableEq

/-- Progress and empty-state texts of the export handler. -/
def exportProgressMsg : String := "📤 Generating Excel export..."

/-- Text sent when there are no records to export. -/
def exportEmptyMsg : String := "📭 No records to export."

/-- Embedding of `handle_export_command` (bot_routes.py lines 208-321) as
its event trace.  `filepath` starts as `None`; any exception inside the
`try` falls to the `except` block which sends an error message; the
`finally` block removes the file whenever `filepath` is set and the file
exists on disk.  `sentErrMsg` abstracts the `'❌ Error generating export
file: ...'` text (it interpolates the exception). -/
def handle_export (env : ExportEnv) : List ExpEv :=
  ExpEv.sentMsg exportProgressMsg ::
  ExpEv.storeGetAll ::
  (if !env.fetchOk then [ExpEv.sentErrMsg]
   else if env.payments.isEmpty then [ExpEv.sentMsg exportEmptyMsg]
   else
     match env.save with
     | SaveOutcome.failNoFile => [ExpEv.sentErrMsg]
     | SaveOutcome.failFileLeft => [ExpEv.fileCreated, ExpEv.sentErrMsg, ExpEv.fileRemoved]
     | SaveOutcome.ok =>
       ExpEv.fileCreated ::
       (if env.sendOk then [ExpEv.sentDoc, ExpEv.fileRemoved]
        else [ExpEv.sentErrMsg, ExpEv.fileRemoved]))

/-- The notion of "alphabetic Latin-script character" used by claim C4:
the letters among the regex ranges, i.e. the ranges minus the two
non-letter symbols they contain, × (U+00D7) and ÷ (U+00F7).  (In Unicode,
every other codepoint of U+00C0..U+024F and all of U+1E00..U+1EFF are
letters.) -/
def specLatinLetter (c : Char) : Bool :=
  nameRangeChar c && decide (c.toNat ≠ 0xD7) && decide (c.toNat ≠ 0xF7)

/-- The token-keeping rule exactly as claim C10 words it: a token is kept
iff, after stripping, it is a nonempty string of ASCII decimal digits; its
value is that of `int`. -/
def specKeptAdminToken (s : String) (n : Nat) : Prop :=
  ∃ tok ∈ splitOnChar ',' s.data,
    pyStrip tok ≠ [] ∧ (∀ c ∈ pyStrip tok, asciiDigit c = true) ∧
    n = intValNd (pyStrip tok)

/-- A token whose stripped form is nonempty, passes `isdigit`, but contains
a character outside category Nd — exactly the tokens on which `int()`
raises `ValueError` inside the set comprehension of `load_admin_ids`. -/
def badDigitToken (s : String) : Prop :=
  ∃ tok ∈ splitOnChar ',' s.data,
    pyStrip tok ≠ [] ∧ (∀ c ∈ pyStrip tok, pyIsDigit c = true) ∧
    ¬ (∀ c ∈ pyStrip tok, (ndDigitVal c).isSome = true)

instance (s : String) (n : Nat) : Decidable (specKeptAdminToken s n) := by
  unfold specKeptAdminToken
  infer_instance

instance (s : String) : Decidable (badDigitToken s) := by
  unfold badDigitToken
  infer_instance

/-! ## Lemmas about the confirmation dictionary -/

theorem dictGet_cons (p : Nat × ℚ) (t : ResetMap) (a : Nat) :
    dictGet (p :: t) a = if p.1 = a then some p.2 else dictGet t a := by
  by_cases h : p.1 = a <;> simp [dictGet, List.find?, h]

theorem dictPop_cons (p : Nat × ℚ) (t : ResetMap) (k : Nat) :
    dictPop (p :: t) k = if p.1 = k then dictPop t k else p :: dictPop t k := by
  by_cases h : p.1 = k <;> simp [dictPop, h]

theorem dictSet_cons (p : Nat × ℚ) (t : ResetMap) (k : Nat) (v : ℚ) :
    dictSet (p :: t) k v = if p.1 = k then (k, v) :: t else p :: dictSet t k v := rfl

theorem dictGet_pop_self (m : ResetMap) (k : Nat) : dictGet (dictPop m k) k = none := by
  induction m with
  | nil => rfl
  | cons p t ih =>
    rw [dictPop_cons]
    by_cases h : p.1 = k
    · simpa [h] using ih
    · rw [if_neg h, dictGet_cons, if_neg h]
      exact ih

theorem dictGet_pop_other (m : ResetMap) {a k : Nat} (h : a ≠ k) :
    dictGet (dictPop m k) a = dictGet m a := by
  induction m with
  | nil => rfl
  | cons p t ih =>
    rw [dictPop_cons, dictGet_cons]
    by_cases hp : p.1 = k
    · have hpa : p.1 ≠ a := by
        rw [hp]
        intro hk
        exact h hk.symm
      rw [if_pos hp, if_neg hpa]
      exact ih
    · rw [if_neg hp, dictGet_cons]
      by_cases ha : p.1 = a
      · rw [if_pos ha, if_pos ha]
      · rw [if_neg ha, if_neg ha]
        exact ih

theorem dictPop_of_get_none {m : ResetMap} {k : Nat} (h : dictGet m k = none) :
    dictPop m k = m := by
  induction m with
  | nil => rfl
  | cons p t ih =>
    rw [dictGet_cons] at h
    by_cases hp : p.1 = k
    · rw [if_pos hp] at h
      exact absurd h (by simp)
    · rw [if_neg hp] at h
      rw [dictPop_cons, if_neg hp, ih h]

theorem dictGet_set_self (m : ResetMap) (k : Nat) (v : ℚ) :
    dictGet (dictSet m k v) k = some v := by
  induction m with
  | nil => simp [dictSet, dictGet_cons]
  | cons p t ih =>
    rw [dictSet_cons]
    by_cases hp : p.1 = k
    · rw [if_pos hp, dictGet_cons]
      simp
    · rw [if_neg hp, dictGet_cons, if_neg hp]
      exact ih

theorem dictGet_set_other (m : ResetMap) {a k : Nat} (v : ℚ) (h : a ≠ k) :
    dictGet (dictSet m k v) a = dictGet m a := by
  have hka : k ≠ a := by
    intro hk
    exact h hk.symm
  induction m with
  | nil => simp [dictSet, dictGet_cons, hka, dictGet]
  | cons p t ih =>
    rw [dictSet_cons, dictGet_cons]
    by_cases hp : p.1 = k
    · have hpa : p.1 ≠ a := by
        rw [hp]
        exact hka
      rw [if_pos hp, dictGet_cons]
      simp [hka, hpa]
    · rw [if_neg hp, dictGet_cons]
      by_cases ha : p.1 = a
      · rw [if_pos ha, if_pos ha]
      · rw [if_neg ha, if_neg ha]
        exact ih

/-! ## Claim C1 — the `/confirm_reset` transition -/

theorem confirm_reset_fresh (uid : Nat) (env : RouteEnv) (m : ResetMap) (t : ℚ)
    (hget : dictGet m uid = some t) (ht : t ≠ 0)
    (hwin : env.now - t < RESET_TIMEOUT) :
    handle_confirm_reset_command uid env m =
      ([Reply.resetComplete env.deleteCount], dictPop m uid, [StoreOp.deleteAll]) := by
  have hcond : ¬ (t = 0 ∨ RESET_TIMEOUT ≤ env.now - t) := by
    push_neg
    exact ⟨ht, hwin⟩
  simp [handle_confirm_reset_command, hget, hcond]

theorem confirm_reset_stale (uid : Nat) (env : RouteEnv) (m : ResetMap) (t : ℚ)
    (hget : dictGet m uid = some t) (hcond : t = 0 ∨ RESET_TIMEOUT ≤ env.now - t) :
    handle_confirm_reset_command uid env m =
      ([Reply.noValidResetRequest], dictPop m uid, []) := by
  simp [handle_confirm_reset_command, hget, hcond]

theorem confirm_reset_no_entry (uid : Nat) (env : RouteEnv) (m : ResetMap)
    (hget : dictGet m uid = none) :
    handle_confirm_reset_command uid env m = ([Reply.noValidResetRequest], m, []) := by
  simp [handle_confirm_reset_command, hget, dictPop_of_get_none hget]

/--
Claim C1 (amended): for an admin user with a pending reset confirmation
`PENDING(t)` whose timestamp `t` is nonzero, a `/confirm_reset` at time
`now` with `now - t < 60` removes the user's entry (state `NONE`), invokes
the store's delete-all operation and replies with the deleted count; with
`now - t ≥ 60` (60.0 exactly counts as expired) it removes the entry,
performs no deletion and replies that the request is invalid or expired;
and with no pending entry it leaves the map unchanged, performs no deletion
and replies that no valid reset request exists.  (The amendment: the Python
truthiness guard `not confirmation_time` additionally treats a stored
timestamp of exactly `0.0` as absent, so the fresh-window rule requires
`t ≠ 0`.)
-/
theorem C1_confirm_reset_state_machine :
    (∀ (uid : Nat) (env : RouteEnv) (m : ResetMap) (t : ℚ),
      dictGet m uid = some t → t ≠ 0 → env.now - t < RESET_TIMEOUT →
      handle_confirm_reset_command uid env m =
        ([Reply.resetComplete env.deleteCount], dictPop m uid, [StoreOp.deleteAll]) ∧
      dictGet (dictPop m uid) uid = none) ∧
    (∀ (uid : Nat) (env : RouteEnv) (m : ResetMap) (t : ℚ),
      dictGet m uid = some t → RESET_TIMEOUT ≤ env.now - t →
      handle_confirm_reset_command uid env m =
        ([Reply.noValidResetRequest], dictPop m uid, []) ∧
      dictGet (dictPop m uid) uid = none) ∧
    (∀ (uid : Nat) (env : RouteEnv) (m : ResetMap),
      dictGet m uid = none →
      handle_confirm_reset_command uid env m = ([Reply.noValidResetRequest], m, [])) := by
  refine ⟨?_, ?_, ?_⟩
  · intro uid env m t hget ht hwin
    exact ⟨confirm_reset_fresh uid env m t hget ht hwin, dictGet_pop_self m uid⟩
  · intro uid env m t hget hexp
    exact ⟨confirm_reset_stale uid env m t hget (Or.inr hexp), dictGet_pop_self m uid⟩
  · intro uid env m hget
    exact confirm_reset_no_entry uid env m hget

/--
Counterexample to claim C1 as stated: the reset-confirmation state
`PENDING(0)` with `now = 30` is inside the 60-second window, yet
`/confirm_reset` replies that no valid request exists and performs no
deletion, because `not confirmation_time` is true for the Python-falsy
stored value `0.0`.
-/
theorem C1_pending_zero_counterexample :
    dictGet [((7 : Nat), (0 : ℚ))] 7 = some 0 ∧
    (30 : ℚ) - 0 < RESET_TIMEOUT ∧
    handle_confirm_reset_command 7 ⟨0, 5, 0, none, false, 30⟩ [(7, 0)] =
      ([Reply.noValidResetRequest], [], []) := by
  refine ⟨by decide, by norm_num [RESET_TIMEOUT], by decide⟩

/-- Witness: the three branches of C1 at concrete inputs. -/
theorem C1_confirm_reset_witness :
    handle_confirm_reset_command 5 ⟨9, 3, 0, none, false, 130⟩ [(5, 100)] =
      ([Reply.resetComplete 3], [], [StoreOp.deleteAll]) ∧
    handle_confirm_reset_command 5 ⟨9, 3, 0, none, false, 160⟩ [(5, 100)] =
      ([Reply.noValidResetRequest], [], []) ∧
    handle_confirm_reset_command 5 ⟨9, 3, 0, none, false, 130⟩ [] =
      ([Reply.noValidResetRequest], [], []) := by
  refine ⟨?_, ?_, ?_⟩
  · exact ((C1_confirm_reset_state_machine.1 5 ⟨9, 3, 0, none, false, 130⟩ [(5, 100)] 100
      (by decide) (by norm_num) (by norm_num [RESET_TIMEOUT])).1).trans (by decide)
  · exact ((C1_confirm_reset_state_machine.2.1 5 ⟨9, 3, 0, none, false, 160⟩ [(5, 100)] 100
      (by decide) (by norm_num [RESET_TIMEOUT])).1).trans (by decide)
  · exact C1_confirm_reset_state_machine.2.2 5 ⟨9, 3, 0, none, false, 130⟩ [] (by decide)

/-! ## Claim C2 — the `/reset` transition -/

/--
Claim C2: `/reset` stores `PENDING(now)` for the issuing admin only when
the store reports at least one record; with an empty store it replies
"nothing to delete" and leaves the confirmation map unchanged; when it does
store, the caller's entry is overwritten with the new timestamp (so at most
one pending confirmation per user, timers do not stack) and no other user's
entry changes.
-/
theorem C2_reset_command_behavior :
    (∀ (uid : Nat) (env : RouteEnv) (m : ResetMap),
      env.statsCount = 0 →
      handle_reset_command uid env m = ([Reply.noRecordsToDelete], m, [StoreOp.getStats])) ∧
    (∀ (uid : Nat) (env : RouteEnv) (m : ResetMap),
      1 ≤ env.statsCount →
      handle_reset_command uid env m =
        ([Reply.resetWarning env.statsCount], dictSet m uid env.now, [StoreOp.getStats]) ∧
      dictGet (dictSet m uid env.now) uid = some env.now ∧
      ∀ k, k ≠ uid → dictGet (dictSet m uid env.now) k = dictGet m k) := by
  constructor
  · intro uid env m h
    simp [handle_reset_command, h]
  · intro uid env m h
    have hne : env.statsCount ≠ 0 := by omega
    refine ⟨by simp [handle_reset_command, hne], dictGet_set_self m uid env.now, ?_⟩
    intro k hk
    exact dictGet_set_other m env.now hk

/-- Witness: C2 at concrete inputs, including an overwrite of an existing
pending entry. -/
theorem C2_reset_command_witness :
    handle_reset_command 5 ⟨0, 0, 0, none, false, 130⟩ [(5, 100)] =
      ([Reply.noRecordsToDelete], [(5, 100)], [StoreOp.getStats]) ∧
    handle_reset_command 5 ⟨4, 0, 0, none, false, 130⟩ [(5, 100)] =
      ([Reply.resetWarning 4], [(5, 130)], [StoreOp.getStats]) := by
  constructor
  · exact C2_reset_command_behavior.1 5 ⟨0, 0, 0, none, false, 130⟩ [(5, 100)] rfl
  · exact ((C2_reset_command_behavior.2 5 ⟨4, 0, 0, none, false, 130⟩ [(5, 100)]
      (by decide)).1).trans (by decide)

/-! ## Claim C9 — per-user keying of the confirmation map -/

/--
Claim C9 (amended): the confirmation map is touched only under the issuing
user's key.  For distinct admins `A ≠ B`: `B`'s `/confirm_reset` and
`/reset` leave `A`'s entry unchanged, and — provided `B` itself has no
pending entry — `B`'s `/confirm_reset` replies that no valid request
exists, triggers no deletion, and leaves the whole map unchanged.  (The
amendment adds the proviso that `B`'s own state is `NONE`; the original
wording also asserted the no-deletion reply when `B` had a fresh pending
confirmation of its own, where the code does delete.)
-/
theorem C9_per_user_isolation :
    ∀ A B : Nat, A ≠ B →
      (∀ (env : RouteEnv) (m : ResetMap),
        dictGet (handle_confirm_reset_command B env m).2.1 A = dictGet m A) ∧
      (∀ (env : RouteEnv) (m : ResetMap),
        dictGet (handle_reset_command B env m).2.1 A = dictGet m A) ∧
      (∀ (env : RouteEnv) (m : ResetMap),
        dictGet m B = none →
        handle_confirm_reset_command B env m = ([Reply.noValidResetRequest], m, [])) := by
  intro A B hAB
  refine ⟨?_, ?_, ?_⟩
  · intro env m
    rcases hget : dictGet m B with _ | t
    · simp [handle_confirm_reset_command, hget, dictGet_pop_other m hAB]
    · by_cases hc : t = 0 ∨ RESET_TIMEOUT ≤ env.now - t <;>
        simp [handle_confirm_reset_command, hget, hc, dictGet_pop_other m hAB]
  · intro env m
    by_cases h : env.statsCount = 0 <;>
      simp [handle_reset_command, h, dictGet_set_other m env.now hAB]
  · intro env m hget
    simp [handle_confirm_reset_command, hget, dictPop_of_get_none hget]

/--
Counterexample to claim C9 as stated: with `A = 1` pending at `t = 100`
and `B = 2` also pending at `t = 110`, `B`'s `/confirm_reset` at
`now = 120` deletes all records and replies with the count — it does not
reply that no valid request exists — even though `A`'s state is `PENDING`.
-/
theorem C9_both_pending_counterexample :
    dictGet [((1 : Nat), (100 : ℚ)), (2, 110)] 1 = some 100 ∧
    handle_confirm_reset_command 2 ⟨0, 5, 0, none, false, 120⟩ [(1, 100), (2, 110)] =
      ([Reply.resetComplete 5], [(1, 100)], [StoreOp.deleteAll]) := by
  refine ⟨by decide, ?_⟩
  exact (confirm_reset_fresh 2 ⟨0, 5, 0, none, false, 120⟩ [(1, 100), (2, 110)] 110
    (by decide) (by norm_num) (by norm_num [RESET_TIMEOUT])).trans (by decide)

/-- Witness: C9 at concrete distinct users. -/
theorem C9_per_user_isolation_witness :
    dictGet (handle_confirm_reset_command 2 ⟨0, 5, 0, none, false, 120⟩ [(1, 100), (2, 110)]).2.1 1 =
      some 100 ∧
    dictGet (handle_reset_command 2 ⟨4, 0, 0, none, false, 130⟩ [(1, 100)]).2.1 1 = some 100 ∧
    handle_confirm_reset_command 2 ⟨0, 5, 0, none, false, 120⟩ [(1, 100)] =
      ([Reply.noValidResetRequest], [(1, 100)], []) := by
  have h := C9_per_user_isolation 1 2 (by decide)
  refine ⟨?_, ?_, ?_⟩
  · exact (h.1 ⟨0, 5, 0, none, false, 120⟩ [(1, 100), (2, 110)]).trans (by decide)
  · exact (h.2.1 ⟨4, 0, 0, none, false, 130⟩ [(1, 100)]).trans (by decide)
  · exact h.2.2 ⟨0, 5, 0, none, false, 120⟩ [(1, 100)] (by decide)

/-! ## Claim C5 — the admin gate -/

theorem dispatch_nonadmin {c : Cmd} (hc : c ∈ adminCmds) (uid : Nat)
    (admins : List Nat) (env : RouteEnv) (m : ResetMap) (h : uid ∉ admins) :
    dispatch c uid admins env m = ([Reply.unauthorized], m, []) := by
  have hadm : is_admin uid admins = false := by
    simp [is_admin, h]
  fin_cases hc <;> simp [dispatch, hadm]

/--
Claim C5: for any sender not in the admin set, each of the eight admin
commands (`/table`, `/today`, `/month`, `/member`, `/export`, `/stats`,
`/reset`, `/confirm_reset`) produces exactly the fixed unauthorized reply,
performs no Payment Store call, and leaves the reset-confirmation map
unchanged — the admin check runs before any state is touched.
-/
theorem C5_admin_gate :
    ∀ c ∈ adminCmds, ∀ (uid : Nat) (admins : List Nat) (env : RouteEnv) (m : ResetMap),
      uid ∉ admins →
      dispatch c uid admins env m = ([Reply.unauthorized], m, []) := by
  intro c hc uid admins env m h
  exact dispatch_nonadmin hc uid admins env m h

/-! ## Claim C3 — the payment message format check -/

theorem mem_dropWhile_of_neg {p : Char → Bool} {c : Char} (hc : p c = false)
    (l : List Char) : c ∈ l.dropWhile p ↔ c ∈ l := by
  induction l with
  | nil => simp
  | cons a t ih =>
    rw [List.dropWhile_cons]
    by_cases h : p a
    · rw [if_pos h, ih]
      constructor
      · intro h'
        exact List.mem_cons_of_mem a h'
      · intro h'
        rcases List.mem_cons.mp h' with rfl | h'
        · rw [hc] at h
          exact absurd h (by simp)
        · exact h'
    · rw [if_neg h]

theorem mem_pyStrip {c : Char} (hc : pyWhitespace c = false) (l : List Char) :
    c ∈ pyStrip l ↔ c ∈ l := by
  unfold pyStrip
  rw [List.mem_reverse, mem_dropWhile_of_neg hc, List.mem_reverse,
    mem_dropWhile_of_neg hc]

theorem splitOnChar_of_not_mem {sep : Char} {l : List Char} (h : sep ∉ l) :
    splitOnChar sep l = [l] := by
  induction l with
  | nil => rfl
  | cons c t ih =>
    have hc : ¬ c = sep := by
      rintro rfl
      exact h (List.mem_cons_self _ _)
    have ht : sep ∉ t := fun hm => h (List.mem_cons_of_mem _ hm)
    simp only [splitOnChar, ih ht, hc, if_false]

/--
Claim C3: for a non-command text message, the handler ignores hyphen-free
text entirely (no reply, no store call); text with a hyphen is split on
every hyphen, and a segment count other than two, a first segment failing
`is_valid_name` after trimming, and a second segment failing
`is_valid_amount` after trimming each produce the identical fixed
invalid-format reply with no record inserted — the reply never
distinguishes the failure reasons.
-/
theorem C3_payment_message_validation :
    (∀ (env : MsgEnv) (text : List Char),
      '-' ∉ text → handle_payment_message env text = (none, [])) ∧
    (∀ (env : MsgEnv) (text : List Char),
      '-' ∈ text → (splitOnChar '-' (pyStrip text)).length ≠ 2 →
      handle_payment_message env text = (some invalidFormatMsg, [])) ∧
    (∀ (env : MsgEnv) (text a b : List Char),
      splitOnChar '-' (pyStrip text) = [a, b] →
      is_valid_name (pyStrip a) = false →
      handle_payment_message env text = (some invalidFormatMsg, [])) ∧
    (∀ (env : MsgEnv) (text a b : List Char),
      splitOnChar '-' (pyStrip text) = [a, b] →
      is_valid_name (pyStrip a) = true →
      is_valid_amount (String.mk (pyStrip b)) = false →
      handle_payment_message env text = (some invalidFormatMsg, [])) := by
  have hhy : pyWhitespace '-' = false := rfl
  have hmem : ∀ text : List Char, '-' ∈ pyStrip text ↔ '-' ∈ text :=
    fun text => mem_pyStrip hhy text
  have hpair : ∀ {text a b : List Char}, splitOnChar '-' (pyStrip text) = [a, b] →
      '-' ∈ pyStrip text := by
    intro text a b hsplit
    by_contra hnot
    rw [splitOnChar_of_not_mem hnot] at hsplit
    exact absurd hsplit (by simp)
  refine ⟨?_, ?_, ?_, ?_⟩
  · intro env text h
    have h' : '-' ∉ pyStrip text := fun hm => h ((hmem text).mp hm)
    simp [handle_payment_message, h']
  · intro env text h hlen
    have h' : '-' ∈ pyStrip text := (hmem text).mpr h
    rcases hsplit : splitOnChar '-' (pyStrip text) with _ | ⟨a, tl⟩
    · simp [handle_payment_message, h', hsplit]
    · rcases tl with _ | ⟨b, tl2⟩
      · simp [handle_payment_message, h', hsplit]
      · rcases tl2 with _ | ⟨c, tl3⟩
        · rw [hsplit] at hlen
          simp at hlen
        · simp [handle_payment_message, h', hsplit]
  · intro env text a b hsplit hname
    have h' : '-' ∈ pyStrip text := hpair hsplit
    simp [handle_payment_message, h', hsplit, hname]
  · intro env text a b hsplit hname hamount
    have h' : '-' ∈ pyStrip text := hpair hsplit
    simp [handle_payment_message, h', hsplit, hname, hamount]

/-- Witness: the C3 branches at the spec's own example inputs. -/
theorem C3_payment_message_witness :
    handle_payment_message ⟨true, ⟨2024, 1, 2, 3, 4, 5⟩⟩ "kamal500".data = (none, []) ∧
    handle_payment_message ⟨true, ⟨2024, 1, 2, 3, 4, 5⟩⟩ "kamal-500-extra".data =
      (some invalidFormatMsg, []) ∧
    handle_payment_message ⟨true, ⟨2024, 1, 2, 3, 4, 5⟩⟩ "k1mal-500".data =
      (some invalidFormatMsg, []) ∧
    handle_payment_message ⟨true, ⟨2024, 1, 2, 3, 4, 5⟩⟩ "kamal-abc".data =
      (some invalidFormatMsg, []) := by
  refine ⟨?_, ?_, ?_, ?_⟩
  · exact C3_payment_message_validation.1 ⟨true, ⟨2024, 1, 2, 3, 4, 5⟩⟩ "kamal500".data
      (by decide)
  · exact C3_payment_message_validation.2.1 ⟨true, ⟨2024, 1, 2, 3, 4, 5⟩⟩
      "kamal-500-extra".data (by decide) (by decide)
  · exact C3_payment_message_validation.2.2.1 ⟨true, ⟨2024, 1, 2, 3, 4, 5⟩⟩
      "k1mal-500".data "k1mal".data "500".data (by decide) (by decide)
  · exact C3_payment_message_validation.2.2.2 ⟨true, ⟨2024, 1, 2, 3, 4, 5⟩⟩
      "kamal-abc".data "kamal".data "abc".data (by decide) (by decide) (by decide)

/-! ## Claim C4 — `is_valid_name` -/

theorem boolAll_iff (core : List Char) :
    (!core.isEmpty && core.all nameRangeChar) = true ↔
      (core ≠ [] ∧ ∀ c ∈ core, nameRangeChar c = true) := by
  rw [Bool.and_eq_true, List.all_eq_true]
  simp [List.isEmpty_iff]

theorem pyRegexNameMatch_iff (l : List Char) :
    pyRegexNameMatch l = true ↔
      ((l ≠ [] ∧ ∀ c ∈ l, nameRangeChar c = true) ∨
       (∃ body, l = body ++ ['\n'] ∧ body ≠ [] ∧ ∀ c ∈ body, nameRangeChar c = true)) := by
  rcases l.eq_nil_or_concat with rfl | ⟨ys, y, rfl⟩
  · constructor
    · intro h
      exact absurd h (by decide)
    · rintro (⟨h, _⟩ | ⟨body, h, _, _⟩)
      · exact absurd rfl h
      · exact absurd h (by simp)
  · simp only [List.concat_eq_append, pyRegexNameMatch, List.getLast?_concat]
    by_cases hy : y = '\n'
    · subst hy
      rw [if_pos rfl, List.dropLast_concat, boolAll_iff]
      constructor
      · rintro ⟨hne, hall⟩
        exact Or.inr ⟨ys, rfl, hne, hall⟩
      · rintro (⟨_, hall⟩ | ⟨body, heq, hne, hall⟩)
        · have hn := hall '\n' (List.mem_append.mpr (Or.inr (List.mem_singleton.mpr rfl)))
          exact absurd hn (by decide)
        · obtain ⟨rfl, -⟩ := List.append_inj' heq rfl
          exact ⟨hne, hall⟩
    · rw [if_neg hy, boolAll_iff]
      constructor
      · rintro ⟨hne, hall⟩
        exact Or.inl ⟨hne, hall⟩
      · rintro (⟨hne, hall⟩ | ⟨body, heq, hne, hall⟩)
        · exact ⟨hne, hall⟩
        · obtain ⟨-, hy'⟩ := List.append_inj' heq rfl
          exact absurd (List.singleton_injective hy') hy

/--
Counterexample to claim C4 as stated: `is_valid_name` accepts `"ab\n"`
(the regex `$` matches before one trailing newline, so a string containing
a whitespace character passes), and it also accepts the one-character
string `"×"` (U+00D7, a symbol, not a letter) — so "true iff every
character is an alphabetic Latin-script character" fails in both
directions' spirit and the stated iff is false at `"ab\n"`.
-/
theorem C4_name_counterexample :
    ¬ ((is_valid_name "ab\n".data = true) ↔
        (1 ≤ ("ab\n".data).length ∧ ("ab\n".data).length ≤ 100 ∧
          ∀ c ∈ "ab\n".data, specLatinLetter c = true)) ∧
    is_valid_name "×".data = true := by
  exact ⟨by decide, by decide⟩

/--
Claim C4 (amended): `is_valid_name(name)` is true iff
`1 ≤ length ≤ 100` (length counted on the whole string) and either every
character lies in the regex ranges `a-z`, `A-Z`, U+00C0..U+024F,
U+1E00..U+1EFF (ranges that include the non-letter symbols × and ÷), or
the string is a nonempty run of such characters followed by exactly one
trailing newline (Python's `$` matches before a final newline).  In
particular the empty string, strings with a digit, hyphen or interior
whitespace, and 101-character strings are rejected.
-/
theorem C4_is_valid_name_amended :
    ∀ l : List Char, is_valid_name l = true ↔
      (1 ≤ l.length ∧ l.length ≤ 100 ∧
        ((l ≠ [] ∧ ∀ c ∈ l, nameRangeChar c = true) ∨
         (∃ body, l = body ++ ['\n'] ∧ body ≠ [] ∧
           ∀ c ∈ body, nameRangeChar c = true))) := by
  intro l
  unfold is_valid_name
  by_cases h : l.length = 0 ∨ 100 < l.length
  · rw [if_pos h]
    constructor
    · intro hfalse
      exact absurd hfalse (by simp)
    · rintro ⟨h1, h2, -⟩
      omega
  · rw [if_neg h]
    push_neg at h
    rw [pyRegexNameMatch_iff]
    constructor
    · intro hm
      exact ⟨by omega, by omega, hm⟩
    · rintro ⟨-, -, hm⟩
      exact hm

/-- Witness: a non-admin sender invoking `/reset` and `/table`. -/
theorem C5_admin_gate_witness :
    dispatch Cmd.reset 42 [1, 77] ⟨4, 0, 0, none, false, 130⟩ [(9, 5)] =
      ([Reply.unauthorized], [(9, 5)], []) ∧
    dispatch Cmd.table 42 [1, 77] ⟨4, 0, 3, none, false, 130⟩ [] =
      ([Reply.unauthorized], [], []) := by
  exact ⟨C5_admin_gate Cmd.reset (by decide) 42 [1, 77] ⟨4, 0, 0, none, false, 130⟩ [(9, 5)]
      (by decide),
    C5_admin_gate Cmd.table (by decide) 42 [1, 77] ⟨4, 0, 3, none, false, 130⟩ [] (by decide)⟩

/-! ## Claim C10 — loading the admin set -/

/--
Counterexample to claim C10 as stated: with `ADMIN_IDS="1,²"` the token
`"1"` is a nonempty string of ASCII digits yet is *not* kept — the token
`"²"` passes `str.isdigit` but `int()` raises on it, and the `except`
branch replaces the whole set with the empty set; and with
`ADMIN_IDS="٣"` (Arabic-Indic three, not ASCII) the token *is* kept, with
value 3.  So "kept iff ASCII decimal digits, every other token silently
dropped" fails in both directions.
-/
theorem C10_unicode_digit_counterexample :
    ¬ ((1 ∈ load_admin_ids (some "1,²")) ↔ specKeptAdminToken "1,²" 1) ∧
    load_admin_ids (some "٣") = [3] := by
  exact ⟨by decide, by decide⟩

/--
Claim C10 (amended): with the variable unset the admin set is empty.  If
some comma-separated token strips to a nonempty all-`isdigit` string that
contains a non-decimal digit character (e.g. `"²"`), the whole set is
empty.  Otherwise a value belongs to the set iff it is the `int` value of
some token that strips to a nonempty string of Unicode decimal digits
(category Nd — not only ASCII).  Whenever the loaded set is empty, every
admin command is denied for every sender.
-/
theorem C10_load_admin_ids_amended :
    load_admin_ids none = [] ∧
    (∀ s : String, badDigitToken s → load_admin_ids (some s) = []) ∧
    (∀ s : String, ¬ badDigitToken s → ∀ n : Nat,
      n ∈ load_admin_ids (some s) ↔
        ∃ tok ∈ splitOnChar ',' s.data,
          pyStrip tok ≠ [] ∧ (∀ c ∈ pyStrip tok, (ndDigitVal c).isSome = true) ∧
          n = intValNd (pyStrip tok)) ∧
    (∀ (v : Option String) (uid : Nat) (env : RouteEnv) (m : ResetMap),
      load_admin_ids v = [] →
      ∀ c ∈ adminCmds, dispatch c uid (load_admin_ids v) env m =
        ([Reply.unauthorized], m, [])) := by
  have hnd_imp : ∀ c : Char, (ndDigitVal c).isSome = true → pyIsDigit c = true := by
    intro c h
    simp [pyIsDigit, h]
  refine ⟨rfl, ?_, ?_, ?_⟩
  · intro s hbad
    obtain ⟨tok, htok, hne, hdig, hnotnd⟩ := hbad
    have hs : ¬ s = "" := by
      rintro rfl
      have htok' : tok = ([] : List Char) := by
        simpa [splitOnChar] using htok
      rw [htok'] at hne
      exact hne rfl
    have hmem : pyStrip tok ∈ ((splitOnChar ',' s.data).map pyStrip).filter
        (fun t => !t.isEmpty && t.all pyIsDigit) := by
      rw [List.mem_filter]
      refine ⟨List.mem_map.mpr ⟨tok, htok, rfl⟩, ?_⟩
      rw [Bool.and_eq_true, List.all_eq_true]
      exact ⟨by simpa [List.isEmpty_iff] using hne, hdig⟩
    have hall : ¬ (((splitOnChar ',' s.data).map pyStrip).filter
        (fun t => !t.isEmpty && t.all pyIsDigit)).all
          (fun t => t.all fun c => (ndDigitVal c).isSome) = true := by
      intro hall
      rw [List.all_eq_true] at hall
      have := hall _ hmem
      rw [List.all_eq_true] at this
      exact hnotnd this
    simp only [load_admin_ids, Option.getD_some]
    rw [if_neg hs, if_neg hall]
  · intro s hnb n
    by_cases hs : s = ""
    · subst hs
      constructor
      · intro hmem
        simp [load_admin_ids] at hmem
      · rintro ⟨tok, htok, hne, -, -⟩
        have htok' : tok = ([] : List Char) := by
          simpa [splitOnChar] using htok
        refine absurd ?_ hne
        rw [htok']
        rfl
    · have hall : (((splitOnChar ',' s.data).map pyStrip).filter
          (fun t => !t.isEmpty && t.all pyIsDigit)).all
            (fun t => t.all fun c => (ndDigitVal c).isSome) = true := by
        by_contra hnot
        apply hnb
        rw [List.all_eq_true] at hnot
        push_neg at hnot
        obtain ⟨t, ht, hbadt⟩ := hnot
        rw [List.mem_filter] at ht
        obtain ⟨hmap, hpred⟩ := ht
        obtain ⟨tok, htok, rfl⟩ := List.mem_map.mp hmap
        rw [Bool.and_eq_true, List.all_eq_true] at hpred
        refine ⟨tok, htok, by simpa [List.isEmpty_iff] using hpred.1, hpred.2, ?_⟩
        exact fun hforall => hbadt (List.all_eq_true.mpr hforall)
      simp only [load_admin_ids, Option.getD_some]
      rw [if_neg hs, if_pos hall]
      constructor
      · intro hmem
        obtain ⟨t, ht, hn⟩ := List.mem_map.mp hmem
        have hndt := (List.all_eq_true.mp hall) t ht
        rw [List.mem_filter] at ht
        obtain ⟨hmap, hpred⟩ := ht
        obtain ⟨tok, htok, rfl⟩ := List.mem_map.mp hmap
        rw [Bool.and_eq_true, List.all_eq_true] at hpred
        rw [List.all_eq_true] at hndt
        exact ⟨tok, htok, by simpa [List.isEmpty_iff] using hpred.1, hndt, hn.symm⟩
      · rintro ⟨tok, htok, hne, hnd, rfl⟩
        apply List.mem_map.mpr
        refine ⟨pyStrip tok, ?_, rfl⟩
        rw [List.mem_filter]
        refine ⟨List.mem_map.mpr ⟨tok, htok, rfl⟩, ?_⟩
        rw [Bool.and_eq_true, List.all_eq_true]
        exact ⟨by simpa [List.isEmpty_iff] using hne, fun c hc => hnd_imp c (hnd c hc)⟩
  · intro v uid env m h c hc
    rw [h]
    exact dispatch_nonadmin hc uid [] env m (by simp)

/-- Witness: C10 at concrete environment strings. -/
theorem C10_load_admin_ids_witness :
    load_admin_ids (some "1,²") = [] ∧
    (12 ∈ load_admin_ids (some "12, 7")) ∧
    dispatch Cmd.month 5 (load_admin_ids (some "abc")) ⟨0, 0, 0, none, false, 0⟩ [] =
      ([Reply.unauthorized], [], []) := by
  refine ⟨?_, ?_, ?_⟩
  · exact C10_load_admin_ids_amended.2.1 "1,²" (by decide)
  · exact (C10_load_admin_ids_amended.2.2.1 "12, 7" (by decide) 12).mpr
      ⟨"12".data, by decide, by decide, by decide, by decide⟩
  · exact C10_load_admin_ids_amended.2.2.2 (some "abc") 5 ⟨0, 0, 0, none, false, 0⟩ []
      (by decide) Cmd.month (by decide)

/-! ## Claims C6 and C8 — the Excel export -/

theorem maxRow_cons (c : Cell) (t : List Cell) :
    maxRow (c :: t) = max c.1 (maxRow t) := rfl

theorem le_maxRow {cells : List Cell} {c : Cell} (h : c ∈ cells) :
    c.1 ≤ maxRow cells := by
  induction cells with
  | nil => cases h
  | cons d t ih =>
    rw [maxRow_cons]
    rcases List.mem_cons.mp h with rfl | h'
    · exact le_max_left _ _
    · exact le_trans (ih h') (le_max_right _ _)

theorem maxRow_le {cells : List Cell} {n : Nat} (h : ∀ c ∈ cells, c.1 ≤ n) :
    maxRow cells ≤ n := by
  induction cells with
  | nil => exact Nat.zero_le n
  | cons d t ih =>
    rw [maxRow_cons]
    exact max_le (h d (List.mem_cons_self d t))
      (ih fun c hc => h c (List.mem_cons_of_mem d hc))

theorem dataCellsFrom_row_bounds :
    ∀ (ps : List Payment) (r : Nat) (c : Cell), c ∈ dataCellsFrom r ps →
      r ≤ c.1 ∧ c.1 < r + ps.length := by
  intro ps
  induction ps with
  | nil =>
    intro r c h
    cases h
  | cons p t ih =>
    intro r c h
    rw [dataCellsFrom] at h
    rcases List.mem_append.mp h with h1 | h2
    · have hr : c.1 = r := by
        simp only [dataRowCells, List.mem_cons, List.not_mem_nil, or_false] at h1
        rcases h1 with rfl | rfl | rfl | rfl | rfl <;> rfl
      rw [hr]
      simp [Nat.lt_add_of_pos_right, List.length_cons]
    · have hb := ih (r + 1) c h2
      rw [List.length_cons]
      omega

theorem rowCells_append (xs ys : List Cell) (r : Nat) :
    rowCells (xs ++ ys) r = rowCells xs r ++ rowCells ys r := by
  simp [rowCells, List.filter_append]

theorem rowCells_nil_of_ne {cells : List Cell} {r : Nat}
    (h : ∀ c ∈ cells, c.1 ≠ r) : rowCells cells r = [] := by
  rw [rowCells, List.filter_eq_nil_iff]
  intro c hc
  simpa using h c hc

theorem rowCells_dataRow (row : Nat) (p : Payment) (j : Nat) :
    rowCells (dataRowCells row p) j =
      if row = j then dataRowCells row p else [] := by
  by_cases h : row = j <;> simp [rowCells, dataRowCells, h]

theorem rowCells_dataCellsFrom :
    ∀ (ps : List Payment) (r i : Nat) (h : i < ps.length),
      rowCells (dataCellsFrom r ps) (r + i) =
        dataRowCells (r + i) (ps.get ⟨i, h⟩) := by
  intro ps
  induction ps with
  | nil =>
    intro r i h
    exact absurd h (by simp)
  | cons p t ih =>
    intro r i h
    rw [dataCellsFrom, rowCells_append]
    cases i with
    | zero =>
      rw [Nat.add_zero, rowCells_dataRow, if_pos rfl]
      have hnil : rowCells (dataCellsFrom (r + 1) t) r = [] := by
        refine rowCells_nil_of_ne fun c hc => ?_
        have := dataCellsFrom_row_bounds t (r + 1) c hc
        omega
      rw [hnil, List.append_nil]
      rfl
    | succ i' =>
      have h' : i' < t.length := by simpa using h
      rw [rowCells_dataRow, if_neg (by omega), List.nil_append]
      have heq : r + (i' + 1) = (r + 1) + i' := by omega
      rw [heq, ih (r + 1) i' h']
      rfl

theorem headerCells_rows : ∀ c ∈ headerCells, c.1 = 1 := by decide

/--
Counterexample to claim C6 as stated: for a single stored record the claim
demands exactly 3 rows with the "TOTAL" summary as the trailing row 3; but
the code writes the summary at `len(payments) + 3`, so the artifact extends
to row 4 and row 3 is empty.
-/
theorem C6_row_count_counterexample :
    maxRow (exportCells [⟨1, "kamal", 50000, 99, ⟨2024, 1, 2, 3, 4, 5⟩⟩]) = 4 ∧
    rowCells (exportCells [⟨1, "kamal", 50000, 99, ⟨2024, 1, 2, 3, 4, 5⟩⟩]) 3 = [] ∧
    rowCells (exportCells [⟨1, "kamal", 50000, 99, ⟨2024, 1, 2, 3, 4, 5⟩⟩]) 4 =
      [(4, 1, CellVal.str "TOTAL"), (4, 3, CellVal.str "500.00")] := by
  exact ⟨by decide, by decide, by decide⟩

/--
Claim C6 (amended): `/export` over `N ≥ 1` records produces an artifact
extending to row `N + 3`: the header row
`[ID, Member Name, Amount (Rs.), Recorded By (User ID), Payment Date]` at
row 1, one row per record at rows `2 .. N+1` (name capitalized, amount as
fixed 2-decimal string, recorded-by as string, date as
`YYYY-MM-DD HH:MM:SS`), an *empty* row `N + 2`, and the summary row
labelled "TOTAL" at row `N + 3` carrying the binary64 accumulation of the
amounts rendered to two decimals (which can differ from the exact decimal
sum in the last digit on long lists) — so `N + 2` populated rows but
`N + 3` rows in extent, not `N + 2` as stated.
`/export` with zero records sends the empty-state message and creates no
artifact.
-/
theorem C6_export_artifact_amended :
    (∀ ps : List Payment, ps ≠ [] →
      maxRow (exportCells ps) = ps.length + 3 ∧
      rowCells (exportCells ps) 1 = headerCells ∧
      (∀ i, ∀ h : i < ps.length,
        rowCells (exportCells ps) (i + 2) = dataRowCells (i + 2) (ps.get ⟨i, h⟩)) ∧
      rowCells (exportCells ps) (ps.length + 2) = [] ∧
      rowCells (exportCells ps) (ps.length + 3) =
        [(ps.length + 3, 1, CellVal.str "TOTAL"),
         (ps.length + 3, 3, CellVal.str (fmtFloat2 (totalDouble ps)))]) ∧
    (∀ env : ExportEnv, env.fetchOk = true → env.payments = [] →
      handle_export env =
        [ExpEv.sentMsg exportProgressMsg, ExpEv.storeGetAll,
         ExpEv.sentMsg exportEmptyMsg]) := by
  constructor
  · intro ps hne
    have hlen : 1 ≤ ps.length := by
      cases ps with
      | nil => exact absurd rfl hne
      | cons p t => simp
    have htot1 : ((ps.length + 3, 1, CellVal.str "TOTAL") : Cell) ∈ exportCells ps := by
      rw [exportCells]
      exact List.mem_append.mpr (Or.inr (List.mem_cons_self _ _))
    refine ⟨?_, ?_, ?_, ?_, ?_⟩
    · refine Nat.le_antisymm ?_ ?_
      · refine maxRow_le fun c hc => ?_
        rw [exportCells] at hc
        rcases List.mem_append.mp hc with hc1 | hc2
        · rcases List.mem_append.mp hc1 with hh | hd
          · rw [headerCells_rows c hh]
            omega
          · have := dataCellsFrom_row_bounds ps 2 c hd
            omega
        · simp only [List.mem_cons, List.not_mem_nil, or_false] at hc2
          rcases hc2 with rfl | rfl <;> simp
      · exact le_maxRow htot1
    · rw [exportCells, rowCells_append, rowCells_append]
      have h1 : rowCells headerCells 1 = headerCells := by decide
      have h2 : rowCells (dataCellsFrom 2 ps) 1 = [] := by
        refine rowCells_nil_of_ne fun c hc => ?_
        have := dataCellsFrom_row_bounds ps 2 c hc
        omega
      have h3 : rowCells [(ps.length + 3, 1, CellVal.str "TOTAL"),
          (ps.length + 3, 3, CellVal.str (fmtFloat2 (totalDouble ps)))] 1 = [] := by
        refine rowCells_nil_of_ne fun c hc => ?_
        simp only [List.mem_cons, List.not_mem_nil, or_false] at hc
        rcases hc with rfl | rfl <;> omega
      rw [h1, h2, h3, List.append_nil, List.append_nil]
    · intro i h
      rw [exportCells, rowCells_append, rowCells_append]
      have h1 : rowCells headerCells (i + 2) = [] := by
        refine rowCells_nil_of_ne fun c hc => ?_
        rw [headerCells_rows c hc]
        omega
      have h2 : rowCells [(ps.length + 3, 1, CellVal.str "TOTAL"),
          (ps.length + 3, 3, CellVal.str (fmtFloat2 (totalDouble ps)))] (i + 2) = [] := by
        refine rowCells_nil_of_ne fun c hc => ?_
        simp only [List.mem_cons, List.not_mem_nil, or_false] at hc
        rcases hc with rfl | rfl <;> omega
      have h3 : rowCells (dataCellsFrom 2 ps) (i + 2) =
          dataRowCells (i + 2) (ps.get ⟨i, h⟩) := by
        have heq : (2 : Nat) + i = i + 2 := by omega
        have := rowCells_dataCellsFrom ps 2 i h
        rw [heq] at this
        exact this
      rw [h1, h2, h3, List.nil_append, List.append_nil]
    · rw [exportCells, rowCells_append, rowCells_append]
      have h1 : rowCells headerCells (ps.length + 2) = [] := by
        refine rowCells_nil_of_ne fun c hc => ?_
        rw [headerCells_rows c hc]
        omega
      have h2 : rowCells (dataCellsFrom 2 ps) (ps.length + 2) = [] := by
        refine rowCells_nil_of_ne fun c hc => ?_
        have := dataCellsFrom_row_bounds ps 2 c hc
        omega
      have h3 : rowCells [(ps.length + 3, 1, CellVal.str "TOTAL"),
          (ps.length + 3, 3, CellVal.str (fmtFloat2 (totalDouble ps)))]
            (ps.length + 2) = [] := by
        refine rowCells_nil_of_ne fun c hc => ?_
        simp only [List.mem_cons, List.not_mem_nil, or_false] at hc
        rcases hc with rfl | rfl <;> omega
      rw [h1, h2, h3]
      rfl
    · rw [exportCells, rowCells_append, rowCells_append]
      have h1 : rowCells headerCells (ps.length + 3) = [] := by
        refine rowCells_nil_of_ne fun c hc => ?_
        rw [headerCells_rows c hc]
        omega
      have h2 : rowCells (dataCellsFrom 2 ps) (ps.length + 3) = [] := by
        refine rowCells_nil_of_ne fun c hc => ?_
        have := dataCellsFrom_row_bounds ps 2 c hc
        omega
      have h3 : rowCells [(ps.length + 3, 1, CellVal.str "TOTAL"),
          (ps.length + 3, 3, CellVal.str (fmtFloat2 (totalDouble ps)))]
            (ps.length + 3) =
          [(ps.length + 3, 1, CellVal.str "TOTAL"),
           (ps.length + 3, 3, CellVal.str (fmtFloat2 (totalDouble ps)))] := by
        simp [rowCells]
      rw [h1, h2, h3]
      rfl
  · intro env hfetch hps
    rcases env with ⟨ps, fetch, save, send⟩
    simp only at hfetch hps
    subst hfetch
    subst hps
    rfl

/-- Witness: C6 at a concrete one-record list and a concrete empty-store
environment. -/
theorem C6_export_artifact_witness :
    maxRow (exportCells [⟨2, "nimal", 123456, 7, ⟨2025, 12, 31, 23, 59, 58⟩⟩]) = 4 ∧
    rowCells (exportCells [⟨2, "nimal", 123456, 7, ⟨2025, 12, 31, 23, 59, 58⟩⟩]) 2 =
      [(2, 1, CellVal.int 2), (2, 2, CellVal.str "Nimal"),
       (2, 3, CellVal.str "1234.56"), (2, 4, CellVal.str "7"),
       (2, 5, CellVal.str "2025-12-31 23:59:58")] ∧
    handle_export ⟨[], true, SaveOutcome.ok, true⟩ =
      [ExpEv.sentMsg exportProgressMsg, ExpEv.storeGetAll,
       ExpEv.sentMsg exportEmptyMsg] := by
  have h := C6_export_artifact_amended.1
    [⟨2, "nimal", 123456, 7, ⟨2025, 12, 31, 23, 59, 58⟩⟩] (by decide)
  refine ⟨h.1, ?_, ?_⟩
  · exact ((h.2.2.1 0 (by decide)).trans (by decide))
  · exact C6_export_artifact_amended.2 ⟨[], true, SaveOutcome.ok, true⟩ rfl rfl

/--
Claim C8: on every `/export` execution in which the temporary artifact
file came into existence — successful send, save failure that left a file,
and send failure — the handler's trace contains the file-removal event
(the `finally` block) before it returns.
-/
theorem C8_export_cleanup :
    ∀ env : ExportEnv,
      ExpEv.fileCreated ∈ handle_export env →
      ExpEv.fileRemoved ∈ handle_export env := by
  intro env h
  rcases env with ⟨ps, fetch, save, send⟩
  cases fetch
  · simp [handle_export] at h
  · cases hps : ps.isEmpty
    · cases save
      · cases send <;> simp [handle_export, hps]
      · simp [handle_export, hps]
      · simp [handle_export, hps] at h
    · simp [handle_export, hps] at h

/-- Witness: an export whose send fails still removes the artifact. -/
theorem C8_export_cleanup_witness :
    ExpEv.fileCreated ∈ handle_export
      ⟨[⟨1, "kamal", 50000, 99, ⟨2024, 1, 2, 3, 4, 5⟩⟩], true, SaveOutcome.ok, false⟩ ∧
    ExpEv.fileRemoved ∈ handle_export
      ⟨[⟨1, "kamal", 50000, 99, ⟨2024, 1, 2, 3, 4, 5⟩⟩], true, SaveOutcome.ok, false⟩ := by
  refine ⟨by decide, ?_⟩
  exact C8_export_cleanup
    ⟨[⟨1, "kamal", 50000, 99, ⟨2024, 1, 2, 3, 4, 5⟩⟩], true, SaveOutcome.ok, false⟩
    (by decide)

/-! ## Claim C7 — `is_valid_amount` -/

theorem finScaled_cast (sg : Bool) (m : Nat) (s b : Int) (h : b ≤ s) :
    ((finScaled sg m s b : Int) : ℚ) = finVal sg m s * (2 : ℚ) ^ (-b) := by
  have h2 : (((s - b).toNat : ℤ)) = s - b := Int.toNat_of_nonneg (by omega)
  have hp : (2 : ℚ) ^ ((s - b).toNat) = (2 : ℚ) ^ (s : ℤ) * (2 : ℚ) ^ (-b) := by
    rw [← zpow_natCast (2 : ℚ) ((s - b).toNat), h2, sub_eq_add_neg,
      zpow_add₀ (two_ne_zero)]
  cases sg <;>
    · simp only [finScaled, finVal, Bool.false_eq_true, if_false, if_true]
      push_cast
      rw [hp]
      ring

theorem finLt_iff (sg1 : Bool) (m1 : Nat) (s1 : Int) (sg2 : Bool) (m2 : Nat)
    (s2 : Int) :
    finLt sg1 m1 s1 sg2 m2 s2 = true ↔ finVal sg1 m1 s1 < finVal sg2 m2 s2 := by
  unfold finLt
  have hb1 : (if s1 ≤ s2 then s1 else s2) ≤ s1 := by
    split <;> omega
  have hb2 : (if s1 ≤ s2 then s1 else s2) ≤ s2 := by
    split <;> omega
  rw [decide_eq_true_eq, ← @Int.cast_lt ℚ _ _ _, finScaled_cast _ _ _ _ hb1,
    finScaled_cast _ _ _ _ hb2]
  exact mul_lt_mul_right (zpow_pos (by norm_num) _)

theorem finLe_iff (sg1 : Bool) (m1 : Nat) (s1 : Int) (sg2 : Bool) (m2 : Nat)
    (s2 : Int) :
    finLe sg1 m1 s1 sg2 m2 s2 = true ↔ finVal sg1 m1 s1 ≤ finVal sg2 m2 s2 := by
  unfold finLe
  have hb1 : (if s1 ≤ s2 then s1 else s2) ≤ s1 := by
    split <;> omega
  have hb2 : (if s1 ≤ s2 then s1 else s2) ≤ s2 := by
    split <;> omega
  rw [decide_eq_true_eq, ← @Int.cast_le ℚ _ _ _, finScaled_cast _ _ _ _ hb1,
    finScaled_cast _ _ _ _ hb2]
  exact mul_le_mul_right (zpow_pos (by norm_num) _)

theorem amountLimit_eq :
    amountLimit = PyFloat.finite false 6710886399328911 (-26) := rfl

theorem finVal_zero : finVal false 0 0 = 0 := by
  simp [finVal]

theorem finVal_limit :
    finVal false 6710886399328911 (-26) = (6710886399328911 : ℚ) / 2 ^ 26 := by
  rw [finVal]
  rw [show ((-26 : ℤ)) = -((26 : ℕ) : ℤ) by norm_num, zpow_neg, zpow_natCast]
  norm_num [div_eq_mul_inv]

/--
Counterexample to claim C7 as stated: the decimal value of
`"99999999.990000001"` is strictly above `99999999.99`, yet
`is_valid_amount` returns true — `float` rounds it down to the double
nearest `99999999.99` (`6710886399328911 / 2^26 ≈ 99999999.98999999`), and
the comparison `amount <= 99999999.99` is a comparison of doubles.
-/
theorem C7_boundary_counterexample :
    pyParseLit "99999999.990000001" =
      some (PyLit.num false 99999999990000001 1000000000) ∧
    (9999999999 : ℚ) / 100 < (99999999990000001 : ℚ) / 1000000000 ∧
    is_valid_amount "99999999.990000001" = true := by
  refine ⟨by decide, by norm_num, by decide⟩

/--
Claim C7 (amended): `is_valid_amount(text)` returns true iff `float(text)`
succeeds and yields a *finite double* `q` with
`0 < q ≤ 6710886399328911 / 2^26` (the double written `99999999.99` in the
source, which lies about `5.4e-9` below that decimal).  Non-numeric text,
the empty string, zero, negatives, infinities and NaN all yield false; but
the boundary is the rounded double, not the decimal `99999999.99`: some
decimals marginally above `99999999.99` are accepted, and positive
decimals small enough to round to `0.0` (below `2^-1075`) are rejected.
-/
theorem C7_is_valid_amount_amended :
    (∀ s : String, is_valid_amount s = true ↔
      ∃ v, pyFloatOfString s = some v ∧
        ∃ q, pyFloatVal v = some q ∧ 0 < q ∧
          q ≤ (6710886399328911 : ℚ) / 2 ^ 26) ∧
    is_valid_amount "0" = false ∧ is_valid_amount "-5" = false ∧
    is_valid_amount "100000000" = false ∧ is_valid_amount "abc" = false ∧
    is_valid_amount "" = false ∧ is_valid_amount "inf" = false ∧
    is_valid_amount "nan" = false ∧ is_valid_amount "99999999.99" = true := by
  refine ⟨?_, by decide, by decide, by decide, by decide, by decide, by decide,
    by decide, by decide⟩
  intro s
  rw [is_valid_amount]
  cases hp : pyFloatOfString s with
  | none => simp
  | some v =>
    cases v with
    | finite sg m t =>
      rw [amountLimit_eq]
      simp only [pyFloatLt, pyFloatLe, pyZero, Bool.and_eq_true, finLt_iff,
        finLe_iff, finVal_zero, finVal_limit, pyFloatVal, Option.some.injEq]
      constructor
      · rintro ⟨h1, h2⟩
        exact ⟨PyFloat.finite sg m t, rfl, finVal sg m t, rfl, h1, h2⟩
      · rintro ⟨w, hw, q, hq, h1, h2⟩
        obtain rfl : PyFloat.finite sg m t = w := hw
        simp only [Option.some.injEq] at hq
        subst hq
        exact ⟨h1, h2⟩
    | pinf =>
      rw [amountLimit_eq]
      simp [pyFloatLt, pyFloatLe, pyZero, pyFloatVal]
    | ninf =>
      simp [pyFloatLt, pyFloatLe, pyZero, pyFloatVal]
    | nan =>
      simp [pyFloatLt, pyZero, pyFloatVal]

end SocietyBot
